import Mathlib

/-!
Verification of the pacman repository / mirror / keyring subsystem of
`builder/component/pacman.py` (arch-image-builder).

The Python code is shallowly embedded: every function relevant to the claims
is translated into an executable Lean definition, statement by statement.
Python strings are modelled as Lean `String`; the Python string operations
used by the source (`startswith`, `endswith`, slicing, `in`, `split`) are
modelled explicitly on the underlying character lists.  Fallible code returns
`Except PyError`, with one constructor per Python exception class raised by
the source.  Filesystem and external-process effects of `trust_keyring_pkg`
and `init_config` are modelled as explicit effect traces / association lists.
-/

/-- Python exception classes raised by the embedded code.
`configError` is `ArchBuilderConfigError`, the others are builtins. -/
inductive PyError where
  | configError : String → PyError
  | keyError : String → PyError
  | runtimeError : String → PyError
  | valueError : String → PyError
deriving Repr, DecidableEq

/-- Structure `PacmanRepoServer` from the source: one candidate endpoint of a repo.
`name` is `None` for original (non-mirror) servers. -/
structure PacmanRepoServer where
  name : Option String := none
  url : String
  mirror : Bool := false
deriving Repr, DecidableEq

/-- Structure `PacmanRepo` from the source. -/
structure PacmanRepo where
  name : String
  priority : Int := 10000
  servers : List PacmanRepoServer := []
  mirrorlist : Option String := none
  publickey : Option String := none
  keyid : Option String := none
deriving Repr, DecidableEq

/-- One entry of `config["pacman"]["repo"]`: an untyped dict, modelled with
one optional field per key the source reads. -/
structure RepoDecl where
  name : Option String := none
  priority : Option Int := none
  mirrorlist : Option String := none
  publickey : Option String := none
  keyid : Option String := none
  server : Option String := none
  servers : Option (List String) := none
deriving Repr, DecidableEq

/-- One `{original, mirror}` pair of a mirror catalog entry (untyped dict). -/
structure MirrorMap where
  original : Option String := none
  mirror : Option String := none
deriving Repr, DecidableEq

/-- One entry of the top-level `mirrors` list (untyped dict). -/
structure MirrorDecl where
  name : Option String := none
  repos : Option (List MirrorMap) := none
deriving Repr, DecidableEq

/-- Python `s.startswith(pre)`. -/
def pyStartsWith (s pre : String) : Bool := pre.data.isPrefixOf s.data

/-- Python `s.endswith(suf)`. -/
def pyEndsWith (s suf : String) : Bool := suf.data.isSuffixOf s.data

/-- Python `s[n:]`. -/
def pySliceFrom (s : String) (n : Nat) : String := ⟨s.data.drop n⟩

/-- Python `s[:-n]` (for `0 < n ≤ len(s)`). -/
def pyDropLast (s : String) (n : Nat) : String := ⟨s.data.take (s.data.length - n)⟩

/-- Substring scan: does `needle` occur contiguously inside `hay`? -/
def subListScan (needle : List Char) : List Char → Bool
  | [] => needle.isEmpty
  | c :: cs => needle.isPrefixOf (c :: cs) || subListScan needle cs

/-- Python `sub in s` (substring test). -/
def pyContainsSub (s sub : String) : Bool := subListScan sub.data s.data

/-- Python `c in s` for a single-character needle. -/
def pyContainsChar (s : String) (c : Char) : Bool := s.data.contains c

/-- Python `str(x)` on an optional string (`None` prints as `"None"`). -/
def pyStrOpt (o : Option String) : String :=
  match o with
  | some s => s
  | none => "None"

/-- Python `os.path.join(a, b)` for the POSIX flavour used by the source. -/
def osPathJoin (a b : String) : String :=
  if pyStartsWith b "/" then b
  else if a = "" ∨ pyEndsWith a "/" then ⟨a.data ++ b.data⟩
  else ⟨a.data ++ '/' :: b.data⟩

/-- Embeds `init_repos`, lines 328-335: collect the raw configured server URLs of one
repo declaration.  The source reads `repo["server"]` in BOTH branches (line
333 says `servers.extend(repo["server"])` under `if "servers" in repo`), so a
declaration using only the `servers` key raises `KeyError`, and when both keys
are present the `server` string is extended character by character. -/
def collect_raw_servers (d : RepoDecl) : Except PyError (List String) :=
  let ss : List String := []
  let ss := if d.server.isSome then ss ++ [d.server.getD ""] else ss
  if d.servers.isSome then
    match d.server with
    | none => .error (.keyError "server")
    | some s =>
        let ss := ss ++ s.data.map (fun c => (⟨[c]⟩ : String))
        if ss.length ≤ 0 then .error (.configError "no any original repo url found")
        else .ok ss
  else
    if ss.length ≤ 0 then .error (.configError "no any original repo url found")
    else .ok ss

/-- Embeds `init_repos`, lines 355-363: the innermost loop over resolved original
URLs for one `{original, mirror}` mapping, appending one mirror server per
matching original, in order. -/
def add_mirror_urls (mname mu o : String) (srv : List PacmanRepoServer) :
    List String → List PacmanRepoServer
  | [] => srv
  | x :: xs =>
      if pyStartsWith x o then
        add_mirror_urls mname mu o
          (srv ++ [{ name := some mname,
                     url := ⟨mu.data ++ (pySliceFrom x o.data.length).data⟩,
                     mirror := true }]) xs
      else add_mirror_urls mname mu o srv xs

/-- Embeds `init_repos`, lines 350-363: loop over the `repos` mappings of one mirror
catalog entry, validating each mapping. -/
def add_mirror_maps (mname : String) (originals : List String)
    (srv : List PacmanRepoServer) :
    List MirrorMap → Except PyError (List PacmanRepoServer)
  | [] => .ok srv
  | mp :: mps =>
      match mp.original with
      | none => .error (.configError "original url not set")
      | some o =>
          match mp.mirror with
          | none => .error (.configError "mirror url not set")
          | some mu =>
              add_mirror_maps mname originals (add_mirror_urls mname mu o srv originals) mps

/-- Embeds `init_repos`, lines 345-363: loop over the mirror catalog, validating each
entry and appending all matching mirror servers. -/
def add_mirrors (originals : List String) (srv : List PacmanRepoServer) :
    List MirrorDecl → Except PyError (List PacmanRepoServer)
  | [] => .ok srv
  | m :: ms =>
      match m.name with
      | none => .error (.configError "mirror name not set")
      | some mname =>
          match m.repos with
          | none => .error (.configError "repos list not set")
          | some maps =>
              match add_mirror_maps mname originals srv maps with
              | .error e => .error e
              | .ok srv' => add_mirrors originals srv' ms

/-- Embeds `init_repos`, lines 366-370: append one non-mirror server per literal
original URL, in order. -/
def add_originals (srv : List PacmanRepoServer) : List String → List PacmanRepoServer
  | [] => srv
  | x :: xs => add_originals (srv ++ [{ name := none, url := x, mirror := false }]) xs

/-- Embeds `init_repos` body for ONE repo declaration, lines 302-370, in source
order: name checks, priority/mirrorlist/publickey/keyid handling, raw server
collection, placeholder resolution, mirror matching, original fallback.
`resolve_simple_values` lives in `builder/lib/subscript.py` (outside the
embedded file) and is abstracted as the parameter `subst`, applied to the
repo name and the raw URL; every theorem below holds for every `subst`. -/
def process_repo_decl (subst : String → String → String)
    (mirrors : List MirrorDecl) (d : RepoDecl) : Except PyError PacmanRepo :=
  match d.name with
  | none => .error (.configError "repo name not set")
  | some name =>
      if name = "local" ∨ pyContainsChar name '/' then
        .error (.configError "bad repo name")
      else if d.publickey.isSome ∧ d.keyid = none then
        .error (.configError "publickey is provided without keyid")
      else
        match collect_raw_servers d with
        | .error e => .error e
        | .ok raw =>
            let originals := raw.map (fun s => subst name s)
            match add_mirrors originals [] mirrors with
            | .error e => .error e
            | .ok ms =>
                .ok { name := name,
                      priority := d.priority.getD 10000,
                      servers := add_originals ms originals,
                      mirrorlist := d.mirrorlist,
                      publickey := d.publickey,
                      keyid := d.keyid }

/-- The comparison key of `self.repos.sort(key=lambda r: r.priority)`. -/
def repoLE (a b : PacmanRepo) : Bool := a.priority ≤ b.priority

/-- Embeds `add_repo`, lines 289-293.  Python `list.sort` is a stable sort, modelled
by `List.mergeSort`. -/
def add_repo (repos : List PacmanRepo) (r : PacmanRepo) :
    Except PyError (List PacmanRepo) :=
  if r.name = "" ∨ r.servers = [] then .error (.configError "bad repo")
  else .ok ((repos ++ [r]).mergeSort repoLE)

/-- The `for repo in self.config["repo"]` loop of `init_repos`, threading the
registry through `process_repo_decl` and `add_repo`. -/
def init_repos_go (subst : String → String → String) (mirrors : List MirrorDecl)
    (acc : List PacmanRepo) : List RepoDecl → Except PyError (List PacmanRepo)
  | [] => .ok acc
  | d :: ds =>
      match process_repo_decl subst mirrors d with
      | .error e => .error e
      | .ok r =>
          match add_repo acc r with
          | .error e => .error e
          | .ok acc' => init_repos_go subst mirrors acc' ds

/-- Embeds `init_repos`, lines 295-372.  `config` is `None` when the `"repo"` key is
absent from the pacman config mapping.  The function performs no external
process invocation: every translated statement is a pure computation on the
configuration (the source contains no `run_external` call site). -/
def init_repos (subst : String → String → String) (mirrors : List MirrorDecl)
    (config : Option (List RepoDecl)) : Except PyError (List PacmanRepo) :=
  match config with
  | none => .error (.configError "no repos found in config")
  | some ds => init_repos_go subst mirrors [] ds

/-- Specification-side description of the mirror servers of C1: one server
per catalog entry, mapping, and matching original URL, in catalog order,
marked as a mirror. -/
def specMirrorServers (mirrors : List MirrorDecl) (originals : List String) :
    List PacmanRepoServer :=
  mirrors.flatMap (fun m =>
    (m.repos.getD []).flatMap (fun mp =>
      (originals.filter (fun x => pyStartsWith x (mp.original.getD ""))).map (fun x =>
        { name := m.name,
          url := ⟨(mp.mirror.getD "").data ++ (pySliceFrom x (mp.original.getD "").data.length).data⟩,
          mirror := true })))

/-- Specification-side description of the original servers of C1: one
non-mirror server per literal original URL, in configuration order. -/
def specOriginalServers (originals : List String) : List PacmanRepoServer :=
  originals.map (fun x => { name := none, url := x, mirror := false })

/-- The comment line `append_repos` emits before each `Server =` line
(lines 108-113): mirror servers get `# Mirror <name>`, originals get
`# Original Repo`. -/
def serverCommentLine (s : PacmanRepoServer) : String :=
  if s.mirror then ⟨("# Mirror ").data ++ (pyStrOpt s.name).data ++ ['\n']⟩
  else "# Original Repo\n"

/-- The `Server = <url>` line emitted for one server. -/
def serverLine (s : PacmanRepoServer) : String :=
  ⟨("Server = ").data ++ s.url.data ++ ['\n']⟩

/-- The `[<name>]` section header line. -/
def sectionLine (n : String) : String := ⟨'[' :: n.data ++ [']', '\n']⟩

/-- The `Include = /etc/pacman.d/<name>-mirrorlist` line. -/
def includeLineFor (n : String) : String :=
  ⟨("Include = /etc/pacman.d/").data ++ n.data ++ ("-mirrorlist\n").data⟩

/-- Embeds `append_repos`, inner `for server in repo.servers` loop (lines 107-114). -/
def append_servers (lines : List String) : List PacmanRepoServer → List String
  | [] => lines
  | s :: ss => append_servers (lines ++ [serverCommentLine s, serverLine s]) ss

/-- Embeds `append_repos`, lines 98-114. -/
def append_repos (repos : List PacmanRepo) (rootfs : Bool) (lines : List String) :
    List String :=
  match repos with
  | [] => lines
  | repo :: rest =>
      let lines := lines ++ [sectionLine repo.name]
      let lines :=
        if rootfs && repo.mirrorlist.isSome then
          lines ++ [includeLineFor repo.name]
        else append_servers lines repo.servers
      append_repos rest rootfs lines

/-- The fields of the `Pacman` object read by `append_config` /
`init_config`: global options plus the repository registry. -/
structure PacmanState where
  gpgcheck : Bool
  caches : List String
  root : String
  gpgdir : String
  logfile : String
  tgtArch : String
  work : String
  repos : List PacmanRepo
deriving Repr, DecidableEq

/-- Embeds `append_config`, lines 116-136 (called with the default `rootfs=False`
for `append_repos`). -/
def append_config (st : PacmanState) (lines : List String) : List String :=
  let siglevel := if st.gpgcheck then "Required DatabaseOptional" else "Never"
  let lines := lines ++ ["[options]\n"]
  let lines := lines ++ st.caches.map (fun c => ⟨("CacheDir = ").data ++ c.data ++ ['\n']⟩)
  let lines := lines ++ [⟨("RootDir = ").data ++ st.root.data ++ ['\n']⟩]
  let lines := lines ++ [⟨("GPGDir = ").data ++ st.gpgdir.data ++ ['\n']⟩]
  let lines := lines ++ [⟨("LogFile = ").data ++ st.logfile.data ++ ['\n']⟩]
  let lines := lines ++ ["HoldPkg = pacman glibc\n"]
  let lines := lines ++ [⟨("Architecture = ").data ++ st.tgtArch.data ++ ['\n']⟩]
  let lines := lines ++ ["UseSyslog\n", "Color\n", "CheckSpace\n", "VerbosePkgLists\n"]
  let lines := lines ++ ["ParallelDownloads = 5\n"]
  let lines := lines ++ [⟨("SigLevel = ").data ++ siglevel.data ++ ['\n']⟩]
  let lines := lines ++ ["LocalFileSigLevel = Optional\n"]
  append_repos st.repos false lines

/-- A flat filesystem: path ↦ file content, as an association list. -/
def FileSys := List (String × String)

/-- Embeds `os.path.exists` / reading a file. -/
def fsLookup (fs : FileSys) (p : String) : Option String :=
  match fs with
  | [] => none
  | e :: es => if e.1 = p then some e.2 else fsLookup es p

/-- Embeds `os.remove`. -/
def fsRemove (fs : FileSys) (p : String) : FileSys :=
  match fs with
  | [] => []
  | e :: es => if e.1 = p then fsRemove es p else e :: fsRemove es p

/-- Embeds `open(p, "w"); f.writelines(...)`: truncate / create and write. -/
def fsWrite (fs : FileSys) (p c : String) : FileSys := (p, c) :: fsRemove fs p

/-- Embeds `init_config`, lines 169-182: remove a pre-existing artifact, render the
config, write it to `<work>/pacman.conf`. -/
def init_config (st : PacmanState) (fs : FileSys) : FileSys :=
  let config := osPathJoin st.work "pacman.conf"
  let fs := if (fsLookup fs config).isSome then fsRemove fs config else fs
  fsWrite fs config (String.join (append_config st []))

/-- Does a rendered line start with `Server = `? -/
def isServerLine (l : String) : Bool := pyStartsWith l "Server = "

/-- Embeds `find_package_file`, lines 502-509: first cache directory containing the
archive filename of the package wins.  `present` is the set of paths that exist
(`os.path.exists`). -/
def find_package_file (caches : List String) (present : List String)
    (filename : String) : Option String :=
  match caches with
  | [] => none
  | c :: cs =>
      let p := osPathJoin c filename
      if p ∈ present then some p else find_package_file cs present filename

/-- One entry of the package archive, with the metadata the source reads. -/
structure ArchiveEntry where
  pathname : String
  mode : Nat
  uid : Nat
  gid : Nat
deriving Repr, DecidableEq

/-- Filesystem / external effects performed by `trust_keyring_pkg`, in
program order. -/
inductive FsOp where
  | rmtree : String → FsOp
  | mkdirs : String → FsOp
  | writeFile : String → Nat → Nat → Nat → FsOp
  | populateKeys : List String → String → FsOp
deriving Repr, DecidableEq

/-- The fixed signing-key path marker of `trust_keyring_pkg` (line 518). -/
def keyringMarker : String := "usr/share/pacman/keyrings/"

/-- Embeds `trust_keyring_pkg` extraction loop, lines 533-553: for each archive
entry under the keyring marker with a non-empty remainder, record the key
name (for `.gpg` files, extension stripped) and write the entry to
`os.path.join(target, fn)` with its recorded mode/uid/gid. -/
def extract_entries (target : String) : List ArchiveEntry → List String × List FsOp
  | [] => ([], [])
  | e :: es =>
      let rest := extract_entries target es
      if pyStartsWith e.pathname keyringMarker then
        let fn := pySliceFrom e.pathname keyringMarker.data.length
        if fn.data.length ≤ 0 then rest
        else
          ((if pyEndsWith fn ".gpg" then [pyDropLast fn 4] else []) ++ rest.1,
           FsOp.writeFile (osPathJoin target fn) e.mode e.uid e.gid :: rest.2)
      else rest

/-- Embeds `trust_keyring_pkg`, lines 511-556.  Returns the key-name list handed to
`pouplate_keys` (or the raised error) together with the ordered effect
trace.  `targetExists` is `os.path.exists(<work>/keyrings)` on entry;
`present` is the set of existing cache file paths. -/
def trust_keyring_pkg (gpgcheck : Bool) (caches : List String)
    (present : List String) (work : String) (targetExists : Bool)
    (pkgName pkgFilename : String) (archive : List ArchiveEntry) :
    Except PyError (List String) × List FsOp :=
  if !gpgcheck then (.ok [], [])
  else
    let target := osPathJoin work "keyrings"
    let path := find_package_file caches present pkgFilename
    let resetOps := (if targetExists then [FsOp.rmtree target] else []) ++ [FsOp.mkdirs target]
    match path with
    | none => (.error (.runtimeError ⟨("package ").data ++ pkgName.data ++ (" not found").data⟩), resetOps)
    | some _ =>
        let ext := extract_entries target archive
        (.ok ext.1, resetOps ++ ext.2 ++ [FsOp.populateKeys ext.1 target])

/-- Specification-side list of the extracted filenames (remainders under the
keyring marker) of an archive, in entry order. -/
def extractedNames (archive : List ArchiveEntry) : List String :=
  (archive.filter (fun e =>
    pyStartsWith e.pathname keyringMarker &&
    !((pySliceFrom e.pathname keyringMarker.data.length).data.length ≤ 0))).map
    (fun e => pySliceFrom e.pathname keyringMarker.data.length)

/-- Split a character list at every `/`. -/
def splitOnSlash : List Char → List (List Char)
  | [] => [[]]
  | c :: cs =>
      match splitOnSlash cs with
      | [] => [[]]
      | g :: gs => if c = '/' then [] :: g :: gs else (c :: g) :: gs

/-- One step of POSIX-style path normalisation over components. -/
def resolveStep (st : List (List Char)) (c : List Char) : List (List Char) :=
  if c = [] ∨ c = ['.'] then st
  else if c = ['.', '.'] then st.dropLast
  else st ++ [c]

/-- Normalise a component list, resolving `.`, `..` and empty components. -/
def resolveComps (comps : List (List Char)) : List (List Char) :=
  comps.foldl resolveStep []

/-- Is the (normalised) path `p` inside directory `dir`? -/
def underDir (dir p : String) : Bool :=
  (resolveComps (splitOnSlash dir.data)).isPrefixOf (resolveComps (splitOnSlash p.data))

/-- Sanity condition on an extracted remainder filename: relative, and free
of `..` components. -/
def plainRelName (fn : String) : Bool :=
  !(pyStartsWith fn "/") && (splitOnSlash fn.data).all (fun c => !(c = ['.', '.']))

/-- pyalpm package, with the fields the embedded code reads. -/
structure AlpmPackage where
  name : String
  filename : String
deriving Repr, DecidableEq

/-- pyalpm database at the lookup boundary (§6 collaborator): exact-name
package lookup data and group membership data. -/
structure AlpmDB where
  pkgs : List AlpmPackage
  groups : List (String × List AlpmPackage)
deriving Repr, DecidableEq

/-- Embeds `db.get_pkg(name)`: exact-name lookup in one database. -/
def dbGetPkg (db : AlpmDB) (n : String) : Option AlpmPackage :=
  db.pkgs.find? (fun p => p.name = n)

/-- Embeds `pyalpm.find_grp_pkgs(dbs, name)`: all members of group `name` across
the given databases, in database order. -/
def findGrpPkgs (dbs : List AlpmDB) (n : String) : List AlpmPackage :=
  dbs.flatMap (fun db => ((db.groups.find? (fun g => g.1 = n)).map (fun g => g.2)).getD [])

/-- The `for dbn in self.databases` loop of `lookup_package` (lines
264-267): first database (in registration order) with an exact-name match
wins. -/
def firstDbPkg (databases : List (String × AlpmDB)) (n : String) : Option AlpmPackage :=
  match databases with
  | [] => none
  | (_, db) :: rest =>
      match dbGetPkg db n with
      | some p => some p
      | none => firstDbPkg rest n

/-- Python `name.split("/")`. -/
def pySplitSlash (s : String) : List String :=
  (splitOnSlash s.data).map (fun l => (⟨l⟩ : String))

/-- Embeds `lookup_package`, lines 236-269.  `loadPkg` models
`self.handle.load_pkg` (archive-filename branch); `localdb` models
`self.handle.get_localdb()`; `databases` is the registration-ordered
database dict. -/
def lookup_package (loadPkg : String → Option AlpmPackage) (localdb : AlpmDB)
    (databases : List (String × AlpmDB)) (name : String) :
    Except PyError (List AlpmPackage) :=
  if pyContainsSub name ".pkg.tar." then
    match loadPkg name with
    | none => .error (.runtimeError ⟨("load package ").data ++ name.data ++ (" failed").data⟩)
    | some p => .ok [p]
  else
    match pySplitSlash name with
    | [d, p] =>
        if (databases.find? (fun e => e.1 = d)).isNone ∧ d ≠ "local" then
          .error (.valueError ⟨("database ").data ++ d.data ++ (" not found").data⟩)
        else
          let db := if d = "local" then localdb
                    else ((databases.find? (fun e => e.1 = d)).map (fun e => e.2)).getD localdb
          match dbGetPkg db p with
          | some pkg => .ok [pkg]
          | none => .error (.valueError ⟨("package ").data ++ p.data ++ (" not found").data⟩)
    | [_] =>
        let grp := findGrpPkgs (databases.map (fun e => e.2)) name
        if grp.length > 0 then .ok grp
        else
          match firstDbPkg databases name with
          | some p => .ok [p]
          | none => .error (.valueError ⟨("package ").data ++ name.data ++ (" not found").data⟩)
    | _ => .error (.valueError ⟨("bad package name ").data ++ name.data⟩)

/-- Specification-side key-identifier list of C5: the extracted filenames
ending in `.gpg`, with the extension stripped, in extraction order. -/
def specKeyNames (archive : List ArchiveEntry) : List String :=
  ((extractedNames archive).filter (fun fn => pyEndsWith fn ".gpg")).map
    (fun fn => pyDropLast fn 4)

/-- Identity placeholder substitution, used by the concrete witnesses. -/
def substId : String → String → String := fun _ u => u

/-- Witness repo declaration for C1 (spec §8 example). -/
def declC1 : RepoDecl := { name := some "core", server := some "https://example.org/core/os/x86_64" }

/-- Witness mirror catalog for C1 (spec §8 example). -/
def mirrorsC1 : List MirrorDecl :=
  [{ name := some "fast",
     repos := some [{ original := some "https://example.org/",
                      mirror := some "https://mirror.example/" }] }]

/-- The repository that the C1 witness inputs resolve to. -/
def rC1 : PacmanRepo :=
  { name := "core", priority := 10000,
    servers :=
      [{ name := some "fast", url := "https://mirror.example/core/os/x86_64", mirror := true },
       { name := none, url := "https://example.org/core/os/x86_64", mirror := false }] }

/-- A declaration that only uses the `servers` key: trips the
`repo["server"]` KeyError slip of line 333. -/
def declKeyErr : RepoDecl := { name := some "a", servers := some ["https://a.example/"] }

/-- A declaration with `publickey` set but no `keyid`. -/
def declPubNoKey : RepoDecl :=
  { name := some "b", publickey := some "https://b.example/key.pub",
    server := some "https://b.example/os" }

/-- Witness servers / repos for the registry-sort claim C7. -/
def srvW : PacmanRepoServer := { name := none, url := "https://w.example/", mirror := false }

/-- First equal-priority witness repo. -/
def rW1 : PacmanRepo := { name := "a", priority := 5, servers := [srvW] }

/-- Second equal-priority witness repo (inserted later). -/
def rW2 : PacmanRepo := { name := "b", priority := 5, servers := [srvW] }

/-- A witness repo of larger priority. -/
def rW3 : PacmanRepo := { name := "c", priority := 7, servers := [srvW] }

/-- Group member package of the C10 witness. -/
def pkgG1 : AlpmPackage := { name := "m1", filename := "m1-1-any.pkg.tar.zst" }

/-- A package whose name collides with the group name of the C10 witness. -/
def pkgG2 : AlpmPackage := { name := "g", filename := "g-1-any.pkg.tar.zst" }

/-- C10 witness database: group `g` = `[pkgG1]`, and a package also named
`g`. -/
def dbEx : AlpmDB := { pkgs := [pkgG2], groups := [("g", [pkgG1])] }

/-- C10 witness database registry. -/
def dbsEx : List (String × AlpmDB) := [("core", dbEx)]

/-- Archive entry whose keyring-relative name climbs out of the scratch
directory via `..` components. -/
def evilEntry : ArchiveEntry :=
  { pathname := "usr/share/pacman/keyrings/../../../../etc/evil.gpg",
    mode := 420, uid := 0, gid := 0 }

/-- A well-formed keyring archive entry. -/
def goodEntry : ArchiveEntry :=
  { pathname := "usr/share/pacman/keyrings/a.gpg", mode := 420, uid := 0, gid := 0 }

/-- A second well-formed keyring archive entry (trusted-file, not a key). -/
def trustedEntry : ArchiveEntry :=
  { pathname := "usr/share/pacman/keyrings/a-trusted", mode := 420, uid := 0, gid := 0 }

/-- The `[options]` block of `append_config` as one list, for factoring the
renderer. -/
def optionsBlock (st : PacmanState) : List String :=
  ["[options]\n"]
  ++ st.caches.map (fun c => ⟨("CacheDir = ").data ++ c.data ++ ['\n']⟩)
  ++ [⟨("RootDir = ").data ++ st.root.data ++ ['\n']⟩]
  ++ [⟨("GPGDir = ").data ++ st.gpgdir.data ++ ['\n']⟩]
  ++ [⟨("LogFile = ").data ++ st.logfile.data ++ ['\n']⟩]
  ++ ["HoldPkg = pacman glibc\n"]
  ++ [⟨("Architecture = ").data ++ st.tgtArch.data ++ ['\n']⟩]
  ++ ["UseSyslog\n", "Color\n", "CheckSpace\n", "VerbosePkgLists\n"]
  ++ ["ParallelDownloads = 5\n"]
  ++ [⟨("SigLevel = ").data ++ (if st.gpgcheck then "Required DatabaseOptional" else "Never").data ++ ['\n']⟩]
  ++ ["LocalFileSigLevel = Optional\n"]

/-! ## Generic helper lemmas -/

theorem prefixOf_append_self [BEq α] [LawfulBEq α] :
    ∀ (l t : List α), (l.isPrefixOf (l ++ t)) = true
  | [], _ => by simp
  | a :: as, t => by
      simp only [List.cons_append, List.isPrefixOf_cons₂_self]
      exact prefixOf_append_self as t

theorem prefixOf_exists [BEq α] [LawfulBEq α] :
    ∀ {l₁ l₂ : List α}, l₁.isPrefixOf l₂ = true → ∃ t, l₂ = l₁ ++ t := by
  intro l₁
  induction l₁ with
  | nil => exact fun h => ⟨_, rfl⟩
  | cons a as ih =>
      intro l₂ h
      cases l₂ with
      | nil => exact absurd h (by simp [List.isPrefixOf])
      | cons b bs =>
          simp only [List.isPrefixOf, Bool.and_eq_true, beq_iff_eq] at h
          obtain ⟨t, ht⟩ := ih h.2
          exact ⟨t, by rw [h.1, List.cons_append, ← ht]⟩

theorem suffixOf_exists [BEq α] [LawfulBEq α] {l₁ l₂ : List α}
    (h : l₁.isSuffixOf l₂ = true) : ∃ t, l₂ = t ++ l₁ := by
  rw [List.isSuffixOf] at h
  obtain ⟨t, ht⟩ := prefixOf_exists h
  refine ⟨t.reverse, ?_⟩
  have := congrArg List.reverse ht
  simpa using this

/-! ## C2: the `server`/`servers` key slip in `init_repos` -/

/-- C2: the claim says placeholder substitution is applied to every URL
configured under either the `server` key or the `servers` key.  The code
instead reads `repo["server"]` inside the `if "servers" in repo` branch
(line 333): a declaration configuring only `servers` raises `KeyError`
(first conjunct), and when both keys are present the `server` string is
appended character by character (second conjunct).  The no-URL branch of the
claim does hold (third conjunct). -/
theorem C2_servers_key_slip :
    process_repo_decl substId [] declKeyErr = .error (.keyError "server") ∧
    collect_raw_servers { name := some "core", server := some "ab", servers := some ["x"] }
      = .ok ["ab", "a", "b"] ∧
    process_repo_decl substId [] { name := some "core" }
      = .error (.configError "no any original repo url found") :=
  ⟨rfl, rfl, rfl⟩

/-! ## C9: `publickey` without `keyid` -/

theorem init_repos_go_append (subst : String → String → String)
    (mirrors : List MirrorDecl) :
    ∀ (pre rest : List RepoDecl) (acc acc' : List PacmanRepo),
      init_repos_go subst mirrors acc pre = .ok acc' →
      init_repos_go subst mirrors acc (pre ++ rest) = init_repos_go subst mirrors acc' rest := by
  intro pre
  induction pre with
  | nil =>
      intro rest acc acc' h
      cases h
      rfl
  | cons d ds ih =>
      intro rest acc acc' h
      cases hp : process_repo_decl subst mirrors d with
      | error e => simp [init_repos_go, hp] at h
      | ok r =>
          cases ha : add_repo acc r with
          | error e => simp [init_repos_go, hp, ha] at h
          | ok acc2 =>
              simp only [init_repos_go, hp, ha, List.cons_append] at h ⊢
              exact ih rest acc2 acc' h

theorem process_pub_no_keyid (subst : String → String → String)
    (mirrors : List MirrorDecl) (d : RepoDecl)
    (hpk : d.publickey.isSome) (hki : d.keyid = none) :
    ∃ msg, process_repo_decl subst mirrors d = .error (.configError msg) := by
  cases hn : d.name with
  | none => exact ⟨"repo name not set", by simp [process_repo_decl, hn]⟩
  | some n =>
      by_cases hb : n = "local" ∨ pyContainsChar n '/' = true
      · exact ⟨"bad repo name", by
          simp only [process_repo_decl, hn]
          rw [if_pos hb]⟩
      · exact ⟨"publickey is provided without keyid", by
          simp only [process_repo_decl, hn]
          rw [if_neg hb, if_pos ⟨hpk, hki⟩]⟩

/-- C9 counterexample: a configuration containing a declaration with
`publickey` but no `keyid` on which `init_repos` nevertheless raises a
`KeyError` (via the line-333 slip on the EARLIER declaration), not an
`ArchBuilderConfigError`. -/
theorem C9_counterexample :
    declPubNoKey.publickey.isSome = true ∧ declPubNoKey.keyid = none ∧
    init_repos substId [] (some [declKeyErr, declPubNoKey]) = .error (.keyError "server") ∧
    ∀ msg, init_repos substId [] (some [declKeyErr, declPubNoKey]) ≠ .error (.configError msg) := by
  refine ⟨rfl, rfl, rfl, ?_⟩
  intro msg h
  have h' : PyError.keyError "server" = PyError.configError msg :=
    Except.error.inj ((rfl : init_repos substId [] (some [declKeyErr, declPubNoKey])
      = .error (.keyError "server")).symm.trans h)
  exact PyError.noConfusion h'

/-- C9 (amended): if every earlier declaration processes successfully, a
declaration with `publickey` set and `keyid` absent makes `init_repos` raise
an `ArchBuilderConfigError`.  The embedded `init_repos` is a pure function of
the configuration: the source contains no external-process call site, so the
error is necessarily raised before any network or tool invocation. -/
theorem C9_pub_no_keyid_config_error (subst : String → String → String)
    (mirrors : List MirrorDecl) (pre post : List RepoDecl) (d : RepoDecl)
    (acc : List PacmanRepo)
    (hpre : init_repos_go subst mirrors [] pre = .ok acc)
    (hpk : d.publickey.isSome) (hki : d.keyid = none) :
    ∃ msg, init_repos subst mirrors (some (pre ++ d :: post)) = .error (.configError msg) := by
  obtain ⟨msg, hm⟩ := process_pub_no_keyid subst mirrors d hpk hki
  refine ⟨msg, ?_⟩
  simp only [init_repos]
  rw [init_repos_go_append subst mirrors pre (d :: post) [] acc hpre]
  simp [init_repos_go, hm]

/-- Closed witness for `C9_pub_no_keyid_config_error`. -/
theorem C9_pub_no_keyid_config_error_witness :
    ∃ msg, init_repos substId [] (some ([] ++ declPubNoKey :: [])) = .error (.configError msg) :=
  C9_pub_no_keyid_config_error substId [] [] [] declPubNoKey [] rfl rfl rfl

/-! ## C1: mirror-first, original-last server resolution -/

theorem add_mirror_urls_eq (mname mu o : String) :
    ∀ (xs : List String) (srv : List PacmanRepoServer),
      add_mirror_urls mname mu o srv xs
        = srv ++ (xs.filter (fun x => pyStartsWith x o)).map (fun x =>
            { name := some mname,
              url := ⟨mu.data ++ (pySliceFrom x o.data.length).data⟩,
              mirror := true }) := by
  intro xs
  induction xs with
  | nil => intro srv; simp [add_mirror_urls]
  | cons x xs ih =>
      intro srv
      by_cases hx : pyStartsWith x o = true
      · simp [add_mirror_urls, if_pos hx, ih, List.filter_cons, hx]
      · simp [add_mirror_urls, if_neg hx, ih, List.filter_cons, hx]

theorem add_mirror_maps_ok (mname : String) (originals : List String) :
    ∀ (mps : List MirrorMap) (srv out : List PacmanRepoServer),
      add_mirror_maps mname originals srv mps = .ok out →
      out = srv ++ mps.flatMap (fun mp =>
        (originals.filter (fun x => pyStartsWith x (mp.original.getD ""))).map (fun x =>
          { name := some mname,
            url := ⟨(mp.mirror.getD "").data ++ (pySliceFrom x (mp.original.getD "").data.length).data⟩,
            mirror := true })) := by
  intro mps
  induction mps with
  | nil =>
      intro srv out h
      cases h
      simp
  | cons mp mps ih =>
      intro srv out h
      cases ho : mp.original with
      | none => simp [add_mirror_maps, ho] at h
      | some o =>
          cases hu : mp.mirror with
          | none => simp [add_mirror_maps, ho, hu] at h
          | some mu =>
              simp only [add_mirror_maps, ho, hu] at h
              have := ih (add_mirror_urls mname mu o srv originals) out h
              rw [this, add_mirror_urls_eq]
              simp [ho, hu, List.flatMap_cons]

theorem add_mirrors_ok (originals : List String) :
    ∀ (ms : List MirrorDecl) (srv out : List PacmanRepoServer),
      add_mirrors originals srv ms = .ok out →
      out = srv ++ specMirrorServers ms originals := by
  intro ms
  induction ms with
  | nil =>
      intro srv out h
      cases h
      simp [specMirrorServers]
  | cons m ms ih =>
      intro srv out h
      cases hn : m.name with
      | none => simp [add_mirrors, hn] at h
      | some mname =>
          cases hr : m.repos with
          | none => simp [add_mirrors, hn, hr] at h
          | some maps =>
              simp only [add_mirrors, hn, hr] at h
              cases hmm : add_mirror_maps mname originals srv maps with
              | error e => simp [hmm] at h
              | ok srv' =>
                  simp only [hmm] at h
                  have h1 := ih srv' out h
                  have h2 := add_mirror_maps_ok mname originals maps srv srv' hmm
                  rw [h1, h2]
                  simp only [specMirrorServers, List.flatMap_cons, hn, hr]
                  simp [List.append_assoc, Option.getD]

theorem add_originals_eq :
    ∀ (xs : List String) (srv : List PacmanRepoServer),
      add_originals srv xs = srv ++ specOriginalServers xs := by
  intro xs
  induction xs with
  | nil => intro srv; simp [add_originals, specOriginalServers]
  | cons x xs ih =>
      intro srv
      simp only [add_originals, ih, specOriginalServers, List.map_cons]
      simp

theorem specMirror_all_mirror (mirrors : List MirrorDecl) (originals : List String) :
    ∀ s ∈ specMirrorServers mirrors originals, s.mirror = true := by
  intro s hs
  simp only [specMirrorServers, List.mem_flatMap, List.mem_map, List.mem_filter] at hs
  obtain ⟨m, -, mp, -, x, -, rfl⟩ := hs
  rfl

theorem specOriginal_all_original (originals : List String) :
    ∀ s ∈ specOriginalServers originals, s.mirror = false := by
  intro s hs
  simp only [specOriginalServers, List.mem_map] at hs
  obtain ⟨x, -, rfl⟩ := hs
  rfl

/-- C1: every repository built by `init_repos` carries all matching mirror
servers (catalog order, marked as mirrors) followed by one original server
per literal original URL (configuration order, marked as originals), with no
further reordering; with no mirror match the list is exactly the original
servers. -/
theorem C1_mirror_first_original_last (subst : String → String → String)
    (mirrors : List MirrorDecl) (d : RepoDecl) (raw : List String) (r : PacmanRepo)
    (hraw : collect_raw_servers d = .ok raw)
    (hok : process_repo_decl subst mirrors d = .ok r) :
    r.servers = specMirrorServers mirrors (raw.map (subst r.name))
                ++ specOriginalServers (raw.map (subst r.name)) ∧
    (∀ s ∈ specMirrorServers mirrors (raw.map (subst r.name)), s.mirror = true) ∧
    (∀ s ∈ specOriginalServers (raw.map (subst r.name)), s.mirror = false) ∧
    (specMirrorServers mirrors (raw.map (subst r.name)) = [] →
        r.servers = specOriginalServers (raw.map (subst r.name))) := by
  cases hn : d.name with
  | none => simp [process_repo_decl, hn] at hok
  | some n =>
      simp only [process_repo_decl, hn] at hok
      by_cases hb : n = "local" ∨ pyContainsChar n '/' = true
      · rw [if_pos hb] at hok
        exact absurd hok (by simp)
      · rw [if_neg hb] at hok
        by_cases hk : d.publickey.isSome = true ∧ d.keyid = none
        · rw [if_pos hk] at hok
          exact absurd hok (by simp)
        · rw [if_neg hk] at hok
          simp only [hraw] at hok
          cases hm : add_mirrors (raw.map (subst n)) [] mirrors with
          | error e => simp [hm] at hok
          | ok ms =>
              simp only [hm] at hok
              have hr : r = { name := n, priority := d.priority.getD 10000,
                              servers := add_originals ms (raw.map (subst n)),
                              mirrorlist := d.mirrorlist, publickey := d.publickey,
                              keyid := d.keyid } := (Except.ok.inj hok).symm
              subst hr
              have hms := add_mirrors_ok (raw.map (subst n)) mirrors [] ms hm
              simp only [List.nil_append] at hms
              refine ⟨?_, specMirror_all_mirror _ _, specOriginal_all_original _, ?_⟩
              · show add_originals ms (raw.map (subst n)) = _
                rw [add_originals_eq, hms]
              · intro hempty
                show add_originals ms (raw.map (subst n)) = _
                rw [add_originals_eq, hms, hempty]
                simp

/-- Closed witness for `C1_mirror_first_original_last`, on the §8 spec
example (`core` repository, one matching mirror). -/
theorem C1_mirror_first_original_last_witness :
    rC1.servers = specMirrorServers mirrorsC1 (["https://example.org/core/os/x86_64"].map (substId rC1.name))
                ++ specOriginalServers (["https://example.org/core/os/x86_64"].map (substId rC1.name)) ∧
    (∀ s ∈ specMirrorServers mirrorsC1 (["https://example.org/core/os/x86_64"].map (substId rC1.name)), s.mirror = true) ∧
    (∀ s ∈ specOriginalServers (["https://example.org/core/os/x86_64"].map (substId rC1.name)), s.mirror = false) ∧
    (specMirrorServers mirrorsC1 (["https://example.org/core/os/x86_64"].map (substId rC1.name)) = [] →
        rC1.servers = specOriginalServers (["https://example.org/core/os/x86_64"].map (substId rC1.name))) :=
  C1_mirror_first_original_last substId mirrorsC1 declC1
    ["https://example.org/core/os/x86_64"] rC1 rfl rfl

/-! ## C7: the registry sort is by ascending priority and stable -/

theorem repoLE_trans : ∀ (a b c : PacmanRepo), repoLE a b → repoLE b c → repoLE a c := by
  intro a b c hab hbc
  simp only [repoLE, decide_eq_true_eq] at hab hbc ⊢
  exact le_trans hab hbc

theorem repoLE_total : ∀ (a b : PacmanRepo), repoLE a b || repoLE b a := by
  intro a b
  simp only [repoLE, Bool.or_eq_true, decide_eq_true_eq]
  exact Int.le_total a.priority b.priority

theorem filter_mergeSort_priority (l : List PacmanRepo) (p : Int) :
    ((l.mergeSort repoLE).filter (fun x => decide (x.priority = p)))
      = l.filter (fun x => decide (x.priority = p)) := by
  have hpair : (l.filter (fun x => decide (x.priority = p))).Pairwise
      (fun a b => repoLE a b = true) := by
    apply List.pairwise_of_forall_mem_list
    intro a ha b hb
    rw [List.mem_filter] at ha hb
    have ha2 := of_decide_eq_true ha.2
    have hb2 := of_decide_eq_true hb.2
    simp only [repoLE, ha2, hb2, decide_eq_true_eq]
    exact le_refl p
  have hsub : List.Sublist (l.filter (fun x => decide (x.priority = p))) l :=
    List.filter_sublist l
  have hsub2 := List.sublist_mergeSort repoLE_trans repoLE_total hpair hsub
  have hsub3 := hsub2.filter (fun x => decide (x.priority = p))
  simp only [List.filter_filter, Bool.and_self] at hsub3
  have hperm := (List.mergeSort_perm l repoLE).filter (fun x => decide (x.priority = p))
  exact (hsub3.eq_of_length hperm.length_eq.symm).symm

/-- C7: after every successful `add_repo` call the registry is sorted by
ascending `priority`, and the sort is stable: for every priority class, the
members of that priority in the registry are exactly the previous
members followed by the new repository if it belongs to the class — i.e.
insertion order is preserved within equal priorities. -/
theorem C7_registry_sorted_stable (repos : List PacmanRepo) (r : PacmanRepo)
    (out : List PacmanRepo) (h : add_repo repos r = .ok out) :
    out.Pairwise (fun a b => repoLE a b = true) ∧
    ∀ p : Int, out.filter (fun x => decide (x.priority = p))
      = (repos ++ [r]).filter (fun x => decide (x.priority = p)) := by
  have hout : out = (repos ++ [r]).mergeSort repoLE := by
    by_cases hc : r.name = "" ∨ r.servers = []
    · rw [add_repo, if_pos hc] at h
      exact absurd h (by simp)
    · rw [add_repo, if_neg hc] at h
      exact (Except.ok.inj h).symm
  subst hout
  constructor
  · exact List.sorted_mergeSort repoLE_trans repoLE_total (repos ++ [r])
  · intro p
    exact filter_mergeSort_priority (repos ++ [r]) p

/-- Closed witness for `C7_registry_sorted_stable`: two equal-priority
repositories keep insertion order. -/
theorem C7_registry_sorted_stable_witness :
    ([rW1, rW2] : List PacmanRepo).Pairwise (fun a b => repoLE a b = true) ∧
    ∀ p : Int, ([rW1, rW2] : List PacmanRepo).filter (fun x => decide (x.priority = p))
      = ([rW1] ++ [rW2]).filter (fun x => decide (x.priority = p)) := by
  have hadd : add_repo [rW1] rW2 = .ok [rW1, rW2] := by
    rw [add_repo, if_neg (by simp [rW2, srvW])]
    rw [List.mergeSort_of_sorted (by decide)]
    rfl
  exact C7_registry_sorted_stable [rW1] rW2 [rW1, rW2] hadd

/-! ## C3 and C8: the config renderer -/

theorem append_servers_factor :
    ∀ (ss : List PacmanRepoServer) (lines : List String),
      append_servers lines ss = lines ++ append_servers [] ss := by
  intro ss
  induction ss with
  | nil => intro lines; simp [append_servers]
  | cons s ss ih =>
      intro lines
      show append_servers (lines ++ [serverCommentLine s, serverLine s]) ss = _
      rw [ih (lines ++ [serverCommentLine s, serverLine s])]
      conv_rhs =>
        rw [show append_servers [] (s :: ss)
              = append_servers ([] ++ [serverCommentLine s, serverLine s]) ss from rfl]
        rw [ih ([] ++ [serverCommentLine s, serverLine s])]
      simp

theorem append_repos_cons (repo : PacmanRepo) (rest : List PacmanRepo)
    (rootfs : Bool) (lines : List String) :
    append_repos (repo :: rest) rootfs lines =
      append_repos rest rootfs
        (if rootfs && repo.mirrorlist.isSome then
           (lines ++ [sectionLine repo.name]) ++ [includeLineFor repo.name]
         else append_servers (lines ++ [sectionLine repo.name]) repo.servers) := rfl

theorem append_repos_factor :
    ∀ (repos : List PacmanRepo) (rootfs : Bool) (lines : List String),
      append_repos repos rootfs lines = lines ++ append_repos repos rootfs [] := by
  intro repos
  induction repos with
  | nil => intro rootfs lines; simp [append_repos]
  | cons repo rest ih =>
      intro rootfs lines
      rw [append_repos_cons, append_repos_cons repo rest rootfs []]
      by_cases hc : (rootfs && repo.mirrorlist.isSome) = true
      · rw [if_pos hc, if_pos hc]
        rw [ih rootfs ((lines ++ [sectionLine repo.name]) ++ [includeLineFor repo.name])]
        rw [ih rootfs (([] ++ [sectionLine repo.name]) ++ [includeLineFor repo.name])]
        simp
      · rw [if_neg hc, if_neg hc]
        rw [append_servers_factor repo.servers (lines ++ [sectionLine repo.name])]
        rw [append_servers_factor repo.servers ([] ++ [sectionLine repo.name])]
        rw [ih rootfs ((lines ++ [sectionLine repo.name]) ++ append_servers [] repo.servers)]
        rw [ih rootfs (([] ++ [sectionLine repo.name]) ++ append_servers [] repo.servers)]
        simp

theorem append_config_eq (st : PacmanState) (lines : List String) :
    append_config st lines = append_repos st.repos false (lines ++ optionsBlock st) := by
  simp [append_config, optionsBlock, List.append_assoc]

theorem append_config_factor (st : PacmanState) (lines : List String) :
    append_config st lines = lines ++ append_config st [] := by
  rw [append_config_eq st lines, append_config_eq st []]
  rw [append_repos_factor st.repos false (lines ++ optionsBlock st)]
  rw [append_repos_factor st.repos false ([] ++ optionsBlock st)]
  simp

theorem fsWrite_lookup (fs : FileSys) (p c : String) :
    fsLookup (fsWrite fs p c) p = some c := by
  simp [fsWrite, fsLookup]

/-- C3: rendering is deterministic and the artifact is regenerated from
scratch: whatever the previous filesystem state, `init_config` leaves
`<work>/pacman.conf` holding exactly the text rendered from the state, so
two runs over the same state produce byte-identical artifacts and no stale
content survives; and `append_config` appends the same line sequence to any
buffer. -/
theorem C3_render_deterministic (st : PacmanState) (fs1 fs2 : FileSys) :
    fsLookup (init_config st fs1) (osPathJoin st.work "pacman.conf")
      = some (String.join (append_config st [])) ∧
    fsLookup (init_config st fs1) (osPathJoin st.work "pacman.conf")
      = fsLookup (init_config st fs2) (osPathJoin st.work "pacman.conf") ∧
    ∀ lines : List String, append_config st lines = lines ++ append_config st [] := by
  have h1 : ∀ fs : FileSys,
      fsLookup (init_config st fs) (osPathJoin st.work "pacman.conf")
        = some (String.join (append_config st [])) := by
    intro fs
    show fsLookup (fsWrite _ (osPathJoin st.work "pacman.conf")
      (String.join (append_config st []))) (osPathJoin st.work "pacman.conf") = _
    rw [fsWrite_lookup]
  exact ⟨h1 fs1, (h1 fs1).trans (h1 fs2).symm, append_config_factor st⟩

theorem append_servers_nil_eq (ss : List PacmanRepoServer) :
    append_servers [] ss = ss.flatMap (fun s => [serverCommentLine s, serverLine s]) := by
  induction ss with
  | nil => rfl
  | cons s ss ih =>
      show append_servers ([] ++ [serverCommentLine s, serverLine s]) ss = _
      rw [append_servers_factor, ih]
      simp [List.flatMap_cons]

theorem isServerLine_head (c : Char) (l : List Char) (h : c ≠ 'S') :
    isServerLine ⟨c :: l⟩ = false := by
  have hb : ('S' == c) = false := beq_eq_false_iff_ne.mpr (Ne.symm h)
  show (("Server = ").data.isPrefixOf (c :: l)) = false
  rw [show ("Server = ").data
        = 'S' :: ('e' :: 'r' :: 'v' :: 'e' :: 'r' :: ' ' :: '=' :: ' ' :: []) from rfl]
  simp [List.isPrefixOf, hb]

theorem isServerLine_server (s : PacmanRepoServer) :
    isServerLine (serverLine s) = true := by
  show (("Server = ").data.isPrefixOf (("Server = ").data ++ s.url.data ++ ['\n'])) = true
  rw [List.append_assoc]
  exact prefixOf_append_self ("Server = ").data (s.url.data ++ ['\n'])

theorem isServerLine_comment (s : PacmanRepoServer) :
    isServerLine (serverCommentLine s) = false := by
  by_cases hm : s.mirror = true
  · rw [serverCommentLine, if_pos hm]
    exact isServerLine_head '#' ((" Mirror ").data ++ (pyStrOpt s.name).data ++ ['\n'])
      (by decide)
  · rw [serverCommentLine, if_neg hm]
    exact isServerLine_head '#' (" Original Repo\n").data (by decide)

theorem isServerLine_section (n : String) : isServerLine (sectionLine n) = false :=
  isServerLine_head '[' (n.data ++ [']', '\n']) (by decide)

theorem isServerLine_include (n : String) : isServerLine (includeLineFor n) = false :=
  isServerLine_head 'I' (("nclude = /etc/pacman.d/").data ++ n.data ++ ("-mirrorlist\n").data)
    (by decide)

theorem sectionLine_ne_include (n m : String) : sectionLine n ≠ includeLineFor m := by
  intro h
  have hd : '[' :: (n.data ++ [']', '\n'])
      = 'I' :: (("nclude = /etc/pacman.d/").data ++ m.data ++ ("-mirrorlist\n").data) :=
    congrArg String.data h
  injection hd with h1 h2
  exact absurd h1 (by decide)

theorem countP_server_pairs (ss : List PacmanRepoServer) :
    ((ss.flatMap (fun s => [serverCommentLine s, serverLine s])).countP isServerLine)
      = ss.length := by
  induction ss with
  | nil => rfl
  | cons s ss ih =>
      rw [List.flatMap_cons]
      simp [List.countP_cons, isServerLine_comment, isServerLine_server, ih]

/-- C8: in bootstrap/rootfs context a repository with a mirrorlist renders
as exactly its section header plus one `Include` directive (no `Server`
lines, exactly one occurrence of the `Include` line); otherwise the section
is the header followed by one comment line plus one `Server` line per
resolved server, in order, with exactly one `Server` line per server. -/
theorem C8_rootfs_mirrorlist_include (repo : PacmanRepo) :
    match repo.mirrorlist with
    | some _ =>
        append_repos [repo] true [] = [sectionLine repo.name, includeLineFor repo.name] ∧
        (append_repos [repo] true []).countP isServerLine = 0 ∧
        (append_repos [repo] true []).count (includeLineFor repo.name) = 1
    | none =>
        append_repos [repo] true [] =
          sectionLine repo.name
            :: repo.servers.flatMap (fun s => [serverCommentLine s, serverLine s]) ∧
        (append_repos [repo] true []).countP isServerLine = repo.servers.length := by
  cases hml : repo.mirrorlist with
  | some m =>
      have h1 : append_repos [repo] true [] = [sectionLine repo.name, includeLineFor repo.name] := by
        rw [append_repos_cons, if_pos (by simp [hml])]
        rfl
      refine ⟨h1, ?_, ?_⟩
      · rw [h1]
        simp [List.countP_cons, isServerLine_section, isServerLine_include]
      · rw [h1]
        have hne : (sectionLine repo.name == includeLineFor repo.name) = false :=
          beq_eq_false_iff_ne.mpr (sectionLine_ne_include repo.name repo.name)
        simp [List.count_cons, hne]
  | none =>
      have h1 : append_repos [repo] true [] =
          sectionLine repo.name
            :: repo.servers.flatMap (fun s => [serverCommentLine s, serverLine s]) := by
        rw [append_repos_cons, if_neg (by simp [hml])]
        show append_servers ([] ++ [sectionLine repo.name]) repo.servers = _
        rw [append_servers_factor, append_servers_nil_eq]
        simp
      refine ⟨h1, ?_⟩
      rw [h1]
      simp [List.countP_cons, isServerLine_section, countP_server_pairs]

/-! ## C10: group lookup takes precedence over package lookup -/

theorem splitOnSlash_no_slash :
    ∀ (l : List Char), (∀ c ∈ l, c ≠ '/') → splitOnSlash l = [l] := by
  intro l
  induction l with
  | nil => intro h; rfl
  | cons c cs ih =>
      intro h
      have hc : c ≠ '/' := h c (List.mem_cons_self c cs)
      have hcs := ih (fun x hx => h x (List.mem_cons_of_mem c hx))
      simp only [splitOnSlash, hcs]
      rw [if_neg hc]

/-- C10: for a bare package name (no `/`, not an archive filename), a
non-empty group match wins — all group members are returned even when a
same-named package exists — and only with no group match are the registered
databases searched in registration order, the first exact match returned,
and a lookup error raised when nothing matches. -/
theorem C10_group_over_package (loadPkg : String → Option AlpmPackage) (localdb : AlpmDB)
    (databases : List (String × AlpmDB)) (name : String)
    (h1 : pyContainsSub name ".pkg.tar." = false)
    (h2 : ∀ c ∈ name.data, c ≠ '/') :
    (findGrpPkgs (databases.map (fun e => e.2)) name ≠ [] →
       lookup_package loadPkg localdb databases name
         = .ok (findGrpPkgs (databases.map (fun e => e.2)) name)) ∧
    (findGrpPkgs (databases.map (fun e => e.2)) name = [] →
       lookup_package loadPkg localdb databases name
         = match firstDbPkg databases name with
           | some p => .ok [p]
           | none => .error (.valueError ⟨("package ").data ++ name.data ++ (" not found").data⟩)) := by
  have hsplit : pySplitSlash name = [name] := by
    simp only [pySplitSlash, splitOnSlash_no_slash name.data h2, List.map_cons, List.map_nil]
  constructor
  · intro hne
    have hpos : 0 < (findGrpPkgs (databases.map (fun e => e.2)) name).length :=
      List.length_pos.mpr hne
    simp [lookup_package, h1, hsplit, hpos]
  · intro heq
    simp [lookup_package, h1, hsplit, heq]

/-- Closed witness for `C10_group_over_package`: group `g` is preferred over
the package that is also named `g`. -/
theorem C10_group_over_package_witness :
    lookup_package (fun _ => none) dbEx dbsEx "g" = .ok [pkgG1] := by
  have h := (C10_group_over_package (fun _ => none) dbEx dbsEx "g"
    (by decide) (by decide)).1 (by decide)
  exact h.trans (congrArg Except.ok (by decide))

/-! ## C6: package absent from every cache directory -/

/-- C6 counterexample: with the package absent from all caches the trust
operation does fail with the not-found error, but the scratch directory IS
created (the `os.makedirs` on line 526 runs before the `path is None` check
on line 527) and nothing removes it on the error path. -/
theorem C6_counterexample :
    (trust_keyring_pkg true ["/var/cache/pacman/pkg"] [] "/work" false
        "akr" "akr-1-1-any.pkg.tar.zst" []).1
      = .error (.runtimeError "package akr not found") ∧
    FsOp.mkdirs "/work/keyrings"
      ∈ (trust_keyring_pkg true ["/var/cache/pacman/pkg"] [] "/work" false
          "akr" "akr-1-1-any.pkg.tar.zst" []).2 := by
  constructor
  · rfl
  · decide

/-- C6 (amended): when the archive is absent from every cache directory the
trust operation fails with the not-found `RuntimeError` (no silent skip), but
the scratch directory is reset and recreated empty BEFORE the check, so the
failed operation leaves behind a freshly created empty scratch directory. -/
theorem C6_not_found_raises (caches present : List String)
    (work pkgName pkgFilename : String) (targetExists : Bool)
    (archive : List ArchiveEntry)
    (h : find_package_file caches present pkgFilename = none) :
    (trust_keyring_pkg true caches present work targetExists pkgName pkgFilename archive).1
      = .error (.runtimeError ⟨("package ").data ++ pkgName.data ++ (" not found").data⟩) ∧
    (trust_keyring_pkg true caches present work targetExists pkgName pkgFilename archive).2
      = (if targetExists then [FsOp.rmtree (osPathJoin work "keyrings")] else [])
        ++ [FsOp.mkdirs (osPathJoin work "keyrings")] := by
  constructor <;> simp [trust_keyring_pkg, h]

/-- Closed witness for `C6_not_found_raises`. -/
theorem C6_not_found_raises_witness :
    (trust_keyring_pkg true ["/c"] [] "/w" false "k" "k-1.pkg.tar.zst" []).1
      = .error (.runtimeError ⟨("package ").data ++ ("k").data ++ (" not found").data⟩) ∧
    (trust_keyring_pkg true ["/c"] [] "/w" false "k" "k-1.pkg.tar.zst" []).2
      = (if false then [FsOp.rmtree (osPathJoin "/w" "keyrings")] else [])
        ++ [FsOp.mkdirs (osPathJoin "/w" "keyrings")] :=
  C6_not_found_raises ["/c"] [] "/w" "k" "k-1.pkg.tar.zst" false [] rfl

/-! ## C5: the key-identifier list -/

theorem extract_names_eq (target : String) :
    ∀ archive : List ArchiveEntry,
      (extract_entries target archive).1 = specKeyNames archive := by
  intro archive
  induction archive with
  | nil => rfl
  | cons e es ih =>
      by_cases hs : pyStartsWith e.pathname keyringMarker = true
      · by_cases hlen : (pySliceFrom e.pathname keyringMarker.length).length = 0
        · simp [extract_entries, hs, hlen, ih, specKeyNames, extractedNames, List.filter_cons]
        · by_cases hend :
              pyEndsWith (pySliceFrom e.pathname keyringMarker.length) ".gpg" = true
          · simp [extract_entries, hs, hlen, hend, ih, specKeyNames, extractedNames,
              List.filter_cons]
          · simp [extract_entries, hs, hlen, hend, ih, specKeyNames, extractedNames,
              List.filter_cons]
      · simp [extract_entries, hs, ih, specKeyNames, extractedNames, List.filter_cons]

theorem gpg_strip_inj (a b : String)
    (ha : pyEndsWith a ".gpg" = true) (hb : pyEndsWith b ".gpg" = true)
    (h : pyDropLast a 4 = pyDropLast b 4) : a = b := by
  obtain ⟨ta, hta⟩ := suffixOf_exists ha
  obtain ⟨tb, htb⟩ := suffixOf_exists hb
  have hla : a.data.length - 4 = ta.length := by
    rw [hta, List.length_append]
    rfl
  have hlb : b.data.length - 4 = tb.length := by
    rw [htb, List.length_append]
    rfl
  have hda : (pyDropLast a 4).data = ta := by
    show (a.data.take (a.data.length - 4)) = ta
    rw [hla, hta, List.take_left' rfl]
  have hdb : (pyDropLast b 4).data = tb := by
    show (b.data.take (b.data.length - 4)) = tb
    rw [hlb, htb, List.take_left' rfl]
  have htab : ta = tb := by rw [← hda, ← hdb, h]
  have : a.data = b.data := by rw [hta, htb, htab]
  cases a
  cases b
  exact congrArg String.mk this

/-- C5 counterexample: an archive with a duplicated keyring entry makes
`trust_keyring_pkg` produce a key-identifier list with duplicates. -/
theorem C5_duplicate_identifiers :
    (trust_keyring_pkg true ["/c"] ["/c/k-1.pkg.tar.zst"] "/w" false
        "k" "k-1.pkg.tar.zst" [goodEntry, goodEntry]).1 = .ok ["a", "a"] ∧
    ¬ (["a", "a"] : List String).Nodup := by
  constructor
  · rfl
  · decide

/-- C5 (amended): the key-identifier list produced by `trust_keyring_pkg`
is exactly the extracted filenames ending in `.gpg` with the extension
stripped, in extraction order; it is duplicate-free whenever the extracted
filenames themselves are distinct (a duplicated archive entry duplicates the
identifier). -/
theorem C5_key_names (caches present : List String)
    (work pkgName pkgFilename : String) (targetExists : Bool)
    (archive : List ArchiveEntry) (names : List String)
    (h : (trust_keyring_pkg true caches present work targetExists pkgName
            pkgFilename archive).1 = .ok names) :
    names = specKeyNames archive ∧
    ((extractedNames archive).Nodup → names.Nodup) := by
  have hnames : names = (extract_entries (osPathJoin work "keyrings") archive).1 := by
    cases hfind : find_package_file caches present pkgFilename with
    | none => simp [trust_keyring_pkg, hfind] at h
    | some path =>
        simp only [trust_keyring_pkg, hfind, Bool.not_true, Bool.false_eq_true,
          if_false] at h
        exact (Except.ok.inj h).symm
  rw [hnames, extract_names_eq]
  refine ⟨rfl, ?_⟩
  intro hnd
  exact List.Nodup.map_on
    (fun x hx y hy hxy =>
      gpg_strip_inj x y (List.mem_filter.mp hx).2 (List.mem_filter.mp hy).2 hxy)
    (hnd.filter _)

/-- Closed witness for `C5_key_names`. -/
theorem C5_key_names_witness :
    (["a"] : List String) = specKeyNames [goodEntry, trustedEntry] ∧
    ((extractedNames [goodEntry, trustedEntry]).Nodup → (["a"] : List String).Nodup) :=
  C5_key_names ["/c"] ["/c/k-1.pkg.tar.zst"] "/w" "k" "k-1.pkg.tar.zst" false
    [goodEntry, trustedEntry] ["a"] rfl

/-! ## C4: extraction confinement and scratch reset -/

theorem splitOnSlash_ne_nil : ∀ l : List Char, splitOnSlash l ≠ [] := by
  intro l
  induction l with
  | nil => simp [splitOnSlash]
  | cons c cs ih =>
      simp only [splitOnSlash]
      cases h : splitOnSlash cs with
      | nil => exact absurd h ih
      | cons g gs => by_cases hc : c = '/' <;> simp [hc]

theorem splitOnSlash_append :
    ∀ (a b : List Char), splitOnSlash (a ++ '/' :: b) = splitOnSlash a ++ splitOnSlash b := by
  intro a b
  induction a with
  | nil =>
      simp only [List.nil_append, splitOnSlash]
      cases h : splitOnSlash b with
      | nil => exact absurd h (splitOnSlash_ne_nil b)
      | cons g gs => simp
  | cons c cs ih =>
      cases h : splitOnSlash cs with
      | nil => exact absurd h (splitOnSlash_ne_nil cs)
      | cons g gs =>
          simp only [List.cons_append, splitOnSlash, List.append_eq]
          rw [ih, h]
          by_cases hc : c = '/' <;> simp [hc]

theorem foldl_resolveStep_extend :
    ∀ (B : List (List Char)), (∀ c ∈ B, c ≠ ['.', '.']) →
      ∀ st, ∃ u, List.foldl resolveStep st B = st ++ u := by
  intro B
  induction B with
  | nil => intro _ st; exact ⟨[], by simp⟩
  | cons c B ih =>
      intro h st
      have hc : c ≠ ['.', '.'] := h c (List.mem_cons_self c B)
      have hB : ∀ x ∈ B, x ≠ ['.', '.'] := fun x hx => h x (List.mem_cons_of_mem c hx)
      rw [List.foldl_cons]
      by_cases h1 : c = [] ∨ c = ['.']
      · rw [show resolveStep st c = st from by simp [resolveStep, h1]]
        exact ih hB st
      · rw [show resolveStep st c = st ++ [c] from by
          rw [resolveStep, if_neg h1, if_neg hc]]
        obtain ⟨u, hu⟩ := ih hB (st ++ [c])
        exact ⟨[c] ++ u, by rw [hu, List.append_assoc]⟩

theorem plainRelName_split (fn : String) (h : plainRelName fn = true) :
    pyStartsWith fn "/" = false ∧ ∀ c ∈ splitOnSlash fn.data, c ≠ ['.', '.'] := by
  simp only [plainRelName, Bool.and_eq_true, Bool.not_eq_true'] at h
  refine ⟨h.1, ?_⟩
  intro c hc
  have := (List.all_eq_true.mp h.2) c hc
  simpa using this

theorem keyrings_ne_empty (l : List Char) :
    (⟨l ++ ("keyrings").data⟩ : String) ≠ "" := by
  intro h
  have h2 : l ++ ("keyrings").data = ([] : List Char) := congrArg String.data h
  have h3 := List.append_eq_nil.mp h2
  exact absurd h3.2 (by decide)

theorem keyrings_not_slash_end (l : List Char) :
    pyEndsWith (⟨l ++ ("keyrings").data⟩ : String) "/" = false := by
  show (("/").data.isSuffixOf (l ++ ("keyrings").data)) = false
  rw [List.isSuffixOf, List.reverse_append]
  rw [show ("keyrings").data.reverse = 's' :: ['g', 'n', 'i', 'r', 'y', 'e', 'k'] from rfl]
  rw [show ("/").data.reverse = ['/'] from rfl]
  rw [show (('s' :: ['g', 'n', 'i', 'r', 'y', 'e', 'k']) ++ l.reverse)
        = 's' :: (['g', 'n', 'i', 'r', 'y', 'e', 'k'] ++ l.reverse) from rfl]
  simp [List.isPrefixOf]

theorem target_data (work : String) :
    ∃ l, (osPathJoin work "keyrings") = (⟨l ++ ("keyrings").data⟩ : String) := by
  rw [osPathJoin]
  rw [if_neg (by decide : ¬ pyStartsWith ("keyrings") "/" = true)]
  by_cases hw : work = "" ∨ pyEndsWith work "/" = true
  · rw [if_pos hw]
    exact ⟨work.data, rfl⟩
  · rw [if_neg hw]
    refine ⟨work.data ++ ['/'], ?_⟩
    show (⟨work.data ++ '/' :: ("keyrings").data⟩ : String) = _
    rw [List.append_assoc]
    rfl

theorem dest_eq (work fn : String) (hfn : pyStartsWith fn "/" = false) :
    osPathJoin (osPathJoin work "keyrings") fn
      = ⟨(osPathJoin work "keyrings").data ++ '/' :: fn.data⟩ := by
  obtain ⟨l, hl⟩ := target_data work
  rw [hl]
  rw [osPathJoin]
  rw [if_neg (by simp [hfn])]
  rw [if_neg (by
    intro hcon
    cases hcon with
    | inl h1 => exact keyrings_ne_empty l h1
    | inr h2 => rw [keyrings_not_slash_end l] at h2; exact Bool.false_ne_true h2)]

theorem underDir_join (work fn : String) (h : plainRelName fn = true) :
    underDir (osPathJoin work "keyrings") (osPathJoin (osPathJoin work "keyrings") fn)
      = true := by
  obtain ⟨hslash, hdots⟩ := plainRelName_split fn h
  rw [dest_eq work fn hslash]
  simp only [underDir, resolveComps]
  rw [splitOnSlash_append]
  rw [List.foldl_append]
  obtain ⟨u, hu⟩ := foldl_resolveStep_extend (splitOnSlash fn.data) hdots
    (List.foldl resolveStep [] (splitOnSlash (osPathJoin work "keyrings").data))
  rw [hu]
  exact prefixOf_append_self _ u

theorem extract_writes (target : String) :
    ∀ (archive : List ArchiveEntry) (q : String) (m u g : Nat),
      FsOp.writeFile q m u g ∈ (extract_entries target archive).2 →
      ∃ e ∈ archive,
        pyStartsWith e.pathname keyringMarker = true ∧
        q = osPathJoin target (pySliceFrom e.pathname keyringMarker.data.length) := by
  intro archive
  induction archive with
  | nil => intro q m u g h; simp [extract_entries] at h
  | cons e es ih =>
      intro q m u g h
      by_cases hs : pyStartsWith e.pathname keyringMarker = true
      · by_cases hlen : (pySliceFrom e.pathname keyringMarker.length).length = 0
        · rw [show (extract_entries target (e :: es)).2 = (extract_entries target es).2 from
            by simp [extract_entries, hs, hlen]] at h
          obtain ⟨e', he', hs', hq⟩ := ih q m u g h
          exact ⟨e', List.mem_cons_of_mem _ he', hs', hq⟩
        · rw [show (extract_entries target (e :: es)).2
              = FsOp.writeFile
                  (osPathJoin target (pySliceFrom e.pathname keyringMarker.data.length))
                  e.mode e.uid e.gid :: (extract_entries target es).2 from
            by simp [extract_entries, hs, hlen]] at h
          rcases List.mem_cons.mp h with h1 | h2
          · injection h1 with hq _ _ _
            exact ⟨e, List.mem_cons_self _ _, hs, hq⟩
          · obtain ⟨e', he', hs', hq⟩ := ih q m u g h2
            exact ⟨e', List.mem_cons_of_mem _ he', hs', hq⟩
      · rw [show (extract_entries target (e :: es)).2 = (extract_entries target es).2 from
          by simp [extract_entries, hs]] at h
        obtain ⟨e', he', hs', hq⟩ := ih q m u g h
        exact ⟨e', List.mem_cons_of_mem _ he', hs', hq⟩

/-- C4 counterexample: an archive entry whose keyring-relative name contains
`..` components is written to a destination that escapes the scratch
directory — `trust_keyring_pkg` performs the write and the normalised
destination is not under `<work>/keyrings`. -/
theorem C4_counterexample :
    FsOp.writeFile "/work/keyrings/../../../../etc/evil.gpg" 420 0 0
      ∈ (trust_keyring_pkg true ["/c"] ["/c/evil-1.pkg.tar.zst"] "/work" false
          "evil" "evil-1.pkg.tar.zst" [evilEntry]).2 ∧
    underDir "/work/keyrings" "/work/keyrings/../../../../etc/evil.gpg" = false := by
  constructor
  · decide
  · decide

/-- C4 (amended): unconditionally, the scratch directory is fully removed
(when present) and recreated empty before any extraction write; and provided
the keyring-relative name of every EXTRACTED entry — an entry whose pathname
starts with the keyring marker — is a plain relative name (no leading `/`,
no `..` component — true of well-formed keyring packages), every write lands
under the scratch directory.  (The counterexample shows the proviso is
necessary: `..` components escape.) -/
theorem C4_extraction_confined (caches present : List String)
    (work pkgName pkgFilename : String) (targetExists : Bool)
    (archive : List ArchiveEntry) :
    (∃ ws, (trust_keyring_pkg true caches present work targetExists pkgName
              pkgFilename archive).2
        = ((if targetExists then [FsOp.rmtree (osPathJoin work "keyrings")] else [])
           ++ [FsOp.mkdirs (osPathJoin work "keyrings")]) ++ ws) ∧
    ((∀ e ∈ archive, pyStartsWith e.pathname keyringMarker = true →
        plainRelName (pySliceFrom e.pathname keyringMarker.data.length) = true) →
      ∀ q m u g,
        FsOp.writeFile q m u g ∈ (trust_keyring_pkg true caches present work targetExists
            pkgName pkgFilename archive).2 →
        underDir (osPathJoin work "keyrings") q = true) := by
  constructor
  · cases hfind : find_package_file caches present pkgFilename with
    | none => exact ⟨[], by simp [trust_keyring_pkg, hfind]⟩
    | some p =>
        refine ⟨(extract_entries (osPathJoin work "keyrings") archive).2
          ++ [FsOp.populateKeys (extract_entries (osPathJoin work "keyrings") archive).1
                (osPathJoin work "keyrings")], ?_⟩
        simp [trust_keyring_pkg, hfind, List.append_assoc]
  · intro hgood q m u g hq
    cases hfind : find_package_file caches present pkgFilename with
    | none =>
        simp only [trust_keyring_pkg, hfind, Bool.not_true, Bool.false_eq_true,
          if_false] at hq
        rcases List.mem_append.mp hq with h1 | h2
        · by_cases ht : targetExists = true <;> simp [ht] at h1
        · simp at h2
    | some p =>
        simp only [trust_keyring_pkg, hfind, Bool.not_true, Bool.false_eq_true,
          if_false] at hq
        rcases List.mem_append.mp hq with h1 | h2
        · rcases List.mem_append.mp h1 with h3 | h4
          · by_cases ht : targetExists = true <;> simp [ht] at h3
          · obtain ⟨e, he, hse, hqe⟩ :=
              extract_writes (osPathJoin work "keyrings") archive q m u g h4
            rw [hqe]
            exact underDir_join work _ (hgood e he hse)
        · simp at h2

/-- Closed witness for `C4_extraction_confined`: both conjuncts at a
concrete archive, the confinement implication discharged on its plain
relative-name proviso. -/
theorem C4_extraction_confined_witness :
    (∃ ws, (trust_keyring_pkg true ["/c"] ["/c/k-1.pkg.tar.zst"] "/w" true "k"
              "k-1.pkg.tar.zst" [goodEntry]).2
        = ((if true then [FsOp.rmtree (osPathJoin "/w" "keyrings")] else [])
           ++ [FsOp.mkdirs (osPathJoin "/w" "keyrings")]) ++ ws) ∧
    (∀ q m u g,
      FsOp.writeFile q m u g ∈ (trust_keyring_pkg true ["/c"] ["/c/k-1.pkg.tar.zst"]
          "/w" true "k" "k-1.pkg.tar.zst" [goodEntry]).2 →
      underDir (osPathJoin "/w" "keyrings") q = true) :=
  ⟨(C4_extraction_confined ["/c"] ["/c/k-1.pkg.tar.zst"] "/w" "k" "k-1.pkg.tar.zst" true
      [goodEntry]).1,
   (C4_extraction_confined ["/c"] ["/c/k-1.pkg.tar.zst"] "/w" "k" "k-1.pkg.tar.zst" true
      [goodEntry]).2 (by decide)⟩
